import Mathlib

/-!
Shallow embedding of the email-retrieval / code-extraction pipeline of
`bot.py` (Netflix receive-PIN Discord bot).  Pure text processing is
translated to executable Lean functions on `List Char` / `String`;
timestamps are embedded as rationals (seconds); Python exceptions are
`Except Unit`; Python `None`-or-value results are `Option`.
-/

namespace NetflixBot

/-! ### Basic string helpers (Python `str.lower`, `in`, literal matching)

Case folding is modelled by `Char.toLower`, which agrees with Python
`str.lower` on the ASCII range (all inputs appearing in the theorems
below are ASCII where case matters). -/

def lowerStr (s : List Char) : List Char := s.map Char.toLower

/-- `leadsWith n h`: `h` starts with `n` (character-exact). -/
def leadsWith : List Char → List Char → Bool
| [], _ => true
| _ :: _, [] => false
| n :: ns, h :: hs => n = h && leadsWith ns hs

/-- Python substring containment `needle in hay`. -/
def isSub (needle hay : List Char) : Bool :=
  match hay with
  | [] => needle.isEmpty
  | _ :: hs => leadsWith needle hay || isSub needle hs

/-- `subject.lower() in email_subject.lower()` from bot.py line 199:
`containsCI hay needle` is true iff `needle` occurs in `hay`
case-insensitively. -/
def containsCI (hay needle : String) : Bool :=
  isSub (lowerStr needle.data) (lowerStr hay.data)

/-- Case-sensitive literal match returning the rest of the input. -/
def csLeads : List Char → List Char → Option (List Char)
| [], hay => some hay
| _ :: _, [] => none
| n :: ns, h :: hs => if n = h then csLeads ns hs else none

/-- Case-insensitive literal match returning the rest of the input
(pattern compiled with `re.IGNORECASE`). -/
def ciLeads : List Char → List Char → Option (List Char)
| [], hay => some hay
| _ :: _, [] => none
| n :: ns, h :: hs => if n.toLower = h.toLower then ciLeads ns hs else none

/-! ### VERIFY_LINK_REGEX (bot.py lines 37-39)

`re.compile(r"\[(https://www\.netflix\.com/account/travel/verify[^\]]*)\]")`
The group is the fixed target followed by all characters up to the
closing bracket. -/

def verifyTarget : List Char := "https://www.netflix.com/account/travel/verify".data

/-- `[^\]]*\]`: the characters before the next `]`, failing when no `]`
follows (the greedy star cannot cross a `]`). -/
def takeToBracket : List Char → Option (List Char × List Char)
| [] => none
| c :: rest =>
  if c = ']' then some ([], rest)
  else
    match takeToBracket rest with
    | some (mid, r) => some (c :: mid, r)
    | none => none

/-- Attempt of `VERIFY_LINK_REGEX` at one position. -/
def verifyMatchAt (cs : List Char) : Option (List Char) :=
  match cs with
  | '[' :: rest =>
    match csLeads verifyTarget rest with
    | some afterTarget =>
      match takeToBracket afterTarget with
      | some (mid, _) => some (verifyTarget ++ mid)
      | none => none
    | none => none
  | _ => none

/-- `VERIFY_LINK_REGEX.search`: leftmost match, returning group 1. -/
def verifySearchAux : List Char → Option (List Char)
| [] => none
| c :: rest =>
  match verifyMatchAt (c :: rest) with
  | some g => some g
  | none => verifySearchAux rest

def verify_link_search (s : String) : Option String :=
  (verifySearchAux s.data).map String.mk

/-! ### SIGN_IN_CODE_REGEX (bot.py lines 42-45)

`(?:A1|A2|sign.?in code|verification code)[^\d\n]*(\d{4,8})` with
`re.IGNORECASE | re.MULTILINE`, where `A1`/`A2` are the two phrase
anchors below.  The source file stores mojibake (UTF-8 bytes of the
Vietnamese phrases decoded as Mac-Roman); the escapes reproduce the
file's codepoints exactly. -/

def viPhrase : List Char :=
  "nh·∫≠p m√£ n√†y ƒë·ªÉ ƒëƒÉng nh·∫≠p".data

def viShort : List Char :=
  "m√£ ƒëƒÉng nh·∫≠p".data

/-- `[^\d\n]*` followed by a digit: skip characters that are neither
digits nor newlines (the greedy star stops at the first digit or
newline). -/
def skipNonDigitNonNl : List Char → List Char
| [] => []
| c :: rest => if c.isDigit ∨ c = '\n' then c :: rest else skipNonDigitNonNl rest

/-- `(\d{4,8})` greedy at the current position: a run of at least 4
digits, capturing at most the first 8. -/
def grabDigits (cs : List Char) : Option (List Char) :=
  let run := cs.takeWhile Char.isDigit
  if 4 ≤ run.length then some (run.take 8) else none

/-- `[^\d\n]*(\d{4,8})` after an anchor. -/
def anchorThenDigits (cs : List Char) : Option (List Char) :=
  grabDigits (skipNonDigitNonNl cs)

/-- The `sign.?in code` alternative at one position: `.?` greedily
consumes one non-newline character, backtracking to zero. -/
def signInAt (cs : List Char) : Option (List Char) :=
  match ciLeads "sign".data cs with
  | none => none
  | some rest =>
    match rest with
    | [] => none
    | c :: rest2 =>
      if c = '\n' then ciLeads "in code".data rest >>= anchorThenDigits
      else
        match ciLeads "in code".data rest2 >>= anchorThenDigits with
        | some g => some g
        | none => ciLeads "in code".data rest >>= anchorThenDigits

/-- `SIGN_IN_CODE_REGEX` attempt at one position: alternatives in
pattern order, each continued by `[^\d\n]*(\d{4,8})`. -/
def tier1At (cs : List Char) : Option (List Char) :=
  match ciLeads viPhrase cs >>= anchorThenDigits with
  | some g => some g
  | none =>
    match ciLeads viShort cs >>= anchorThenDigits with
    | some g => some g
    | none =>
      match signInAt cs with
      | some g => some g
      | none => ciLeads "verification code".data cs >>= anchorThenDigits

/-- `SIGN_IN_CODE_REGEX.search`: leftmost position wins. -/
def tier1Search : List Char → Option (List Char)
| [] => none
| c :: rest =>
  match tier1At (c :: rest) with
  | some g => some g
  | none => tier1Search rest

/-! ### The Vietnamese doubled-anchor pattern (bot.py lines 339-343)

`A1[\s\n]+A1[\s\n]+(\d{4,8})`, `re.IGNORECASE | re.MULTILINE`. -/

/-- `[\s\n]+` followed by a non-whitespace literal: at least one
whitespace character, then skip all whitespace. -/
def wsSkip1 : List Char → Option (List Char)
| [] => none
| c :: rest =>
  if c.isWhitespace then some ((c :: rest).dropWhile Char.isWhitespace) else none

def tier2At (cs : List Char) : Option (List Char) :=
  ciLeads viPhrase cs >>= wsSkip1 >>= fun r1 =>
  ciLeads viPhrase r1 >>= wsSkip1 >>= fun r2 =>
  grabDigits r2

def tier2Search : List Char → Option (List Char)
| [] => none
| c :: rest =>
  match tier2At (c :: rest) with
  | some g => some g
  | none => tier2Search rest

/-! ### The standalone-line pattern (bot.py lines 350-352)

`^\s*(\d{4,8})\s*$` with `re.MULTILINE`: `^` anchors at the start of
the text or after a newline; `$` at the end of the text or before a
newline. -/

/-- `\s*$`: whitespace up to the end of the text or up to a newline. -/
def trailOk : List Char → Bool
| [] => true
| c :: rest =>
  if c = '\n' then true
  else if c.isWhitespace then trailOk rest
  else false

/-- `^\s*(\d{4,8})\s*$` attempt at a line start. A digit run longer
than 8 can never satisfy the trailing `\s*$` under backtracking, so the
run length must lie in `[4,8]`. -/
def tier3At (cs : List Char) : Option (List Char) :=
  let afterWs := cs.dropWhile Char.isWhitespace
  let run := afterWs.takeWhile Char.isDigit
  if 4 ≤ run.length ∧ run.length ≤ 8 ∧ trailOk (afterWs.drop run.length) = true then
    some run
  else none

/-- Search trying every `^` position (text start, or just after `\n`). -/
def tier3SearchAux : List Char → Bool → Option (List Char)
| [], _ => none
| c :: rest, atStart =>
  match (if atStart then tier3At (c :: rest) else none) with
  | some g => some g
  | none => tier3SearchAux rest (c = '\n')

def tier3Search (cs : List Char) : Option (List Char) :=
  tier3SearchAux cs true

/-! ### The last-resort pattern (bot.py line 359)

`\b(\d{4,8})\b`.  Word characters are modelled on the ASCII range of
Python's `\w` (letters, digits, underscore). -/

def isWordChar (c : Char) : Bool := c.isAlphanum || c = '_'

/-- `(\d{4,8})\b` at a position already preceded by a word boundary:
a digit run of length 4 to 8 not followed by a word character (longer
runs fail every backtracking split). -/
def noWordHead : List Char → Bool
| [] => true
| c :: _ => !isWordChar c

def boundaryBefore : Option Char → Bool
| none => true
| some p => !isWordChar p

def tier4Core (cs : List Char) : Option (List Char) :=
  let run := cs.takeWhile Char.isDigit
  if 4 ≤ run.length ∧ run.length ≤ 8 ∧ noWordHead (cs.drop run.length) = true then
    some run
  else none

def tier4SearchAux : Option Char → List Char → Option (List Char)
| _, [] => none
| prev, c :: rest =>
  match (if boundaryBefore prev then tier4Core (c :: rest) else none) with
  | some g => some g
  | none => tier4SearchAux (some c) rest

def tier4Search (cs : List Char) : Option (List Char) :=
  tier4SearchAux none cs

/-! ### The extraction chain of `get_sign_in_code` (bot.py lines 326-363)

The if/else chain tries `SIGN_IN_CODE_REGEX`, then the Vietnamese
doubled pattern, then the standalone-line pattern, then the free digit
run, recording `pattern_used` exactly as in the source. -/

def get_sign_in_code_extract (content : String) : Option (String × String) :=
  match tier1Search content.data with
  | some code => some (String.mk code, "main regex")
  | none =>
    match tier2Search content.data with
    | some code => some (String.mk code, "Vietnamese pattern")
    | none =>
      match tier3Search content.data with
      | some code => some (String.mk code, "simple pattern")
      | none =>
        match tier4Search content.data with
        | some code => some (String.mk code, "fallback pattern")
        | none => none

/-! ### Email locator (`get_netflix_emails`, bot.py lines 164-218)

A search-result candidate is either a fetch/parse fault (`status != "OK"`
or an exception inside the loop body, both of which `continue`), or a
fetched message carrying its decoded subject (`decode_email_subject` of
the raw header, which itself never raises out of the loop), the result
of `_extract_email_content` (`none` when no text content was found),
and the raw `Date` header (`msg.get("Date", "")`). -/

inductive Candidate
| fetchFail
| fetched (subject : String) (content : Option String) (date : String)

/-- Python truthiness of the extracted content (`if content:`):
`None` and the empty string are falsy. -/
def pyTruthyOpt : Option String → Bool
| none => false
| some s => s ≠ ""

/-- The return performed at a subject match (bot.py lines 199-209):
`return content, email_date` when the content is truthy, otherwise
`return content, None`. -/
def matchReturn (content : Option String) (date : String) :
    Option (Option String × Option String) :=
  if pyTruthyOpt content then some (content, some date) else some (content, none)

/-- Whether a candidate passes the client-side subject filter
(`subject.lower() in email_subject.lower()`); a faulted fetch exposes
no subject. -/
def matchesF (filter : String) : Candidate → Bool
| .fetchFail => false
| .fetched subj _ _ => containsCI subj filter

def candidateResult (filter : String) : Candidate → Option (Option String × Option String)
| .fetchFail => none
| .fetched subj content date =>
  if containsCI subj filter then matchReturn content date else none

/-- The `for mail_id in reversed(mail_ids)` loop body, already applied
to the reversed candidate list: skip faults, return at the first
subject match. -/
def scanCandidates (filter : String) : List Candidate → Option (Option String × Option String)
| [] => none
| .fetchFail :: rest => scanCandidates filter rest
| .fetched subj content date :: rest =>
  if containsCI subj filter then matchReturn content date
  else scanCandidates filter rest

/-- `get_netflix_emails` on a list of search-result candidates given in
mailbox search order (most recent last): the loop walks them in
reverse. -/
def get_netflix_emails_model (filter : String) (candidates : List Candidate) :
    Option (Option String × Option String) :=
  scanCandidates filter candidates.reverse

/-! ### The verify-link flow (`_get_verify_link_async`, bot.py lines 388-408)

`content = await get_netflix_emails(subject)` binds the *(content,
date) tuple* (or `None`); `VERIFY_LINK_REGEX.search(content)` is then
applied to that value.  `re` only accepts strings, so a tuple argument
raises `TypeError`, which the enclosing `except` turns into `None`.
`PyVal` records the runtime type of the value handed to `search`. -/

inductive PyVal
| pyNone
| pyStr (s : String)
| pyTuple (a b : PyVal)

def pyOfOptStr : Option String → PyVal
| none => .pyNone
| some s => .pyStr s

def pyTruthy : PyVal → Bool
| .pyNone => false
| .pyStr s => s ≠ ""
| .pyTuple _ _ => true

/-- `VERIFY_LINK_REGEX.search(v)`: only a string is a legal argument;
anything else raises `TypeError`. -/
def re_search_verify (v : PyVal) : Except Unit (Option String) :=
  match v with
  | .pyStr s => .ok (verify_link_search s)
  | _ => .error ()

/-- `_get_verify_link_async` applied to the email-lookup result. -/
def get_verify_link_async (lookup : Option (Option String × Option String)) : Option String :=
  let content : PyVal :=
    match lookup with
    | none => .pyNone
    | some (c, d) => .pyTuple (pyOfOptStr c) (pyOfOptStr d)
  if pyTruthy content = false then none
  else
    match re_search_verify content with
    | .ok (some link) => some link
    | .ok none => none
    | .error _ => none

/-! ### Rate limiter (`is_rate_limited`, bot.py lines 115-138) and the
`signin` gate (lines 527-536)

Timestamps are rationals (seconds).  The function receives and returns
the per-user entry of `user_request_times` (the dict keys separate
users; each entry evolves independently). -/

def RATE_LIMIT_WINDOW : ℚ := 60

def RATE_LIMIT_MAX_REQUESTS : ℕ := 5

def is_rate_limited (times : List ℚ) (current_time : ℚ) : Bool × List ℚ :=
  let kept := times.filter (fun req_time => current_time - req_time < RATE_LIMIT_WINDOW)
  if RATE_LIMIT_MAX_REQUESTS ≤ kept.length then (true, kept)
  else (false, kept ++ [current_time])

inductive SigninStep
| rateLimitReject
| coreInvoked
deriving DecidableEq, Repr

/-- The gate at the head of the `signin` command: when `is_rate_limited`
answers true the handler sends the rejection and returns without
calling `get_sign_in_code`. -/
def signin_gate (times : List ℚ) (current : ℚ) : SigninStep × List ℚ :=
  let r := is_rate_limited times current
  if r.1 then (SigninStep.rateLimitReject, r.2) else (SigninStep.coreInvoked, r.2)

/-- A sequence of `signin` invocations by one user at the given
timestamps, starting from the given window state. -/
def run_signin_calls : List ℚ → List ℚ → List SigninStep
| [], _ => []
| t :: ts, times =>
  let r := signin_gate times t
  r.1 :: run_signin_calls ts r.2

/-! ### Expiry evaluator (`parse_email_date` lines 48-61,
`is_code_expired` lines 64-91)

A Python `datetime` is embedded as a wall-clock reading in seconds plus
an optional UTC offset (`tzinfo`); `now = datetime.now(timezone.utc)`
is a UTC instant.  `email.utils.parsedate_to_datetime` is standard
library, passed in as a parameter (`Except Unit` models its
exceptions). -/

structure PyDateTime where
  wall : ℚ
  tz : Option ℚ
deriving DecidableEq

/-- The instant denoted by an aware datetime (wall reading minus UTC
offset); a naive datetime is read here with offset 0 as the code
installs. -/
def utcInstant (d : PyDateTime) : ℚ := d.wall - d.tz.getD 0

/-- `email_date.replace(tzinfo=timezone.utc)` when naive. -/
def normTz (d : PyDateTime) : PyDateTime :=
  if d.tz = none then ⟨d.wall, some 0⟩ else d

/-- One-decimal display of a rational, standing in for Python's
`f"{x:.1f}"` (up to the binary-float rounding of the original). -/
def fmtTenths (q : ℚ) : String :=
  let t : ℤ := round (q * 10)
  (if t < 0 then "-" else "") ++ toString (t.natAbs / 10) ++ "." ++ toString (t.natAbs % 10)

def parse_email_date (parsedate : String → Except Unit PyDateTime)
    (date_str : String) : Option PyDateTime :=
  if date_str = "" then none
  else
    match parsedate date_str with
    | .ok d => some d
    | .error _ => none

def is_code_expired (now : ℚ) (email_date : Option PyDateTime)
    (expiry_minutes : ℚ) : Bool × String :=
  match email_date with
  | none => (true, "Unknown email date")
  | some d =>
    let d2 := normTz d
    let minutes_elapsed : ℚ := (now - utcInstant d2) / 60
    if expiry_minutes < minutes_elapsed then
      (true, "Code expired (" ++ fmtTenths minutes_elapsed ++ " minutes old, limit: "
        ++ fmtTenths expiry_minutes ++ " minutes)")
    else
      (false, "Code valid (expires in " ++ fmtTenths (expiry_minutes - minutes_elapsed)
        ++ " minutes)")

/-! ### UTF-8 decoding (used by `decode_email_subject` and
`_extract_email_content`)

An executable UTF-8 decoder over byte lists, with the two CPython error
handlers used in the source: `repl = true` emits U+FFFD for an invalid
span (`errors="replace"`), `repl = false` drops it (`errors="ignore"`).
Error spans follow CPython's maximal-subpart consumption. -/

def contByte (b : Nat) : Bool := decide (0x80 ≤ b) && decide (b ≤ 0xBF)

def cont3first (b b1 : Nat) : Bool :=
  if b = 0xE0 then decide (0xA0 ≤ b1) && decide (b1 ≤ 0xBF)
  else if b = 0xED then decide (0x80 ≤ b1) && decide (b1 ≤ 0x9F)
  else contByte b1

def cont4first (b b1 : Nat) : Bool :=
  if b = 0xF0 then decide (0x90 ≤ b1) && decide (b1 ≤ 0xBF)
  else if b = 0xF4 then decide (0x80 ≤ b1) && decide (b1 ≤ 0x8F)
  else contByte b1

def badMark (repl : Bool) : List Char := if repl then ['�'] else []

/-- One decoding step at lead byte `b` with tail `rest`: the decoded
scalar value (or `none` for an invalid span) and how many further
bytes of `rest` the span consumes. -/
def utf8Step (b : Nat) (rest : List Nat) : Option Nat × Nat :=
  if b < 0x80 then (some b, 0)
  else if 0xC2 ≤ b ∧ b ≤ 0xDF then
    match rest with
    | [] => (none, 0)
    | b1 :: _ =>
      if contByte b1 then (some ((b - 0xC0) * 64 + (b1 - 0x80)), 1)
      else (none, 0)
  else if 0xE0 ≤ b ∧ b ≤ 0xEF then
    match rest with
    | [] => (none, 0)
    | b1 :: rest1 =>
      if cont3first b b1 then
        match rest1 with
        | [] => (none, 1)
        | b2 :: _ =>
          if contByte b2 then
            (some (((b - 0xE0) * 64 + (b1 - 0x80)) * 64 + (b2 - 0x80)), 2)
          else (none, 1)
      else (none, 0)
  else if 0xF0 ≤ b ∧ b ≤ 0xF4 then
    match rest with
    | [] => (none, 0)
    | b1 :: rest1 =>
      if cont4first b b1 then
        match rest1 with
        | [] => (none, 1)
        | b2 :: rest2 =>
          if contByte b2 then
            match rest2 with
            | [] => (none, 2)
            | b3 :: _ =>
              if contByte b3 then
                (some ((((b - 0xF0) * 64 + (b1 - 0x80)) * 64 + (b2 - 0x80)) * 64
                  + (b3 - 0x80)), 3)
              else (none, 2)
          else (none, 1)
      else (none, 0)
  else (none, 0)

/-- Decoding loop with fuel; every step consumes at least the lead
byte, so fuel equal to the byte count always suffices. -/
def utf8DecodeGo (repl : Bool) : Nat → List Nat → List Char
| 0, _ => []
| _ + 1, [] => []
| fuel + 1, b :: rest =>
  match utf8Step b rest with
  | (some cp, k) => Char.ofNat cp :: utf8DecodeGo repl fuel (rest.drop k)
  | (none, k) => badMark repl ++ utf8DecodeGo repl fuel (rest.drop k)

def utf8DecodeWith (repl : Bool) (bs : List Nat) : List Char :=
  utf8DecodeGo repl bs.length bs

/-! ### Subject decoding (`decode_email_subject`, bot.py lines 94-112)

`email.header.decode_header` (standard library) splits the raw header
into parts, each a decoded `str` chunk or a `(bytes, charset-or-None)`
pair; the split list is the input here.  Decoding bytes under a
declared charset is the stdlib codec machinery, passed in as the
`codec` parameter (`Except Unit` models its exceptions: unknown codec,
`UnicodeDecodeError`).  The loop accumulates; a raised exception
reaches the function-level `except`, which returns the original raw
subject. -/

inductive HeaderPart
| bytesPart (bs : List Nat) (enc : Option String)
| textPart (s : String)

/-- What the loop body appends for one part; `.error` when the
`part.decode(encoding)` call raises.  `if encoding:` is Python
truthiness, so an empty charset string also selects the UTF-8/ignore
branch. -/
def perWordDecode (codec : String → List Nat → Except Unit String) :
    HeaderPart → Except Unit String
| .textPart s => .ok s
| .bytesPart bs enc =>
  match enc with
  | some e =>
    if e = "" then .ok (String.mk (utf8DecodeWith false bs))
    else codec e bs
  | none => .ok (String.mk (utf8DecodeWith false bs))

def decodeLoop (codec : String → List Nat → Except Unit String) :
    List HeaderPart → String → Except Unit String
| [], acc => .ok acc
| p :: rest, acc =>
  match perWordDecode codec p with
  | .ok s => decodeLoop codec rest (acc ++ s)
  | .error u => .error u

def decode_email_subject (codec : String → List Nat → Except Unit String)
    (parts : List HeaderPart) (subject : String) : String :=
  match decodeLoop codec parts "" with
  | .ok s => s
  | .error _ => subject

/-- Modelled from the spec: §4.2's `decodeSubject` as worded — decode
each word with its declared encoding, falling back to UTF-8 with lossy
*replacement* when a word carries no encoding or its decoding faults,
and concatenate in header order.  Stated only to compare with the
source's `decode_email_subject`. -/
def decodeSubjectSpec (codec : String → List Nat → Except Unit String)
    (parts : List HeaderPart) : String :=
  String.join (parts.map fun p =>
    match p with
    | .textPart s => s
    | .bytesPart bs enc =>
      match enc with
      | some e =>
        match codec e bs with
        | .ok s => s
        | .error _ => String.mk (utf8DecodeWith true bs)
      | none => String.mk (utf8DecodeWith true bs))

/-- Whether a per-word decode succeeds. -/
def exceptOk : Except Unit String → Bool
| .ok _ => true
| .error _ => false

/-- The string a successful per-word decode produces (`""` on error;
only used under an all-successful hypothesis). -/
def okVal : Except Unit String → String
| .ok s => s
| .error _ => ""

/-- Concatenation of the per-word decodes in header order. -/
def concatParts (codec : String → List Nat → Except Unit String) :
    List HeaderPart → String
| [] => ""
| p :: rest => okVal (perWordDecode codec p) ++ concatParts codec rest

/-! ## Theorems -/

/-- C1: the verify-link flow loses a link that is present.  For a located
email whose body contains a bracketed URL with the fixed verification
prefix, `VERIFY_LINK_REGEX` does extract that URL from the body text, yet
`_get_verify_link_async` applied to the result of the email lookup returns
no result — the lookup result is the `(content, date)` pair and
`VERIFY_LINK_REGEX.search` applied to a pair raises `TypeError`, which the
handler converts to `None`; indeed the flow returns `none` on every
possible lookup result. -/
theorem verify_flow_loses_found_link :
    verify_link_search
        "Click [https://www.netflix.com/account/travel/verify?nftoken=abc123] now"
      = some "https://www.netflix.com/account/travel/verify?nftoken=abc123" ∧
    get_verify_link_async (get_netflix_emails_model "temporary access code"
        [Candidate.fetched "Your temporary access code"
          (some "Click [https://www.netflix.com/account/travel/verify?nftoken=abc123] now")
          "Mon, 01 Jan 2024 10:00:00 +0000"])
      = none ∧
    ∀ lookup, get_verify_link_async lookup = none := by
  refine ⟨by rfl, by rfl, ?_⟩
  intro lookup
  cases lookup with
  | none => rfl
  | some cd => cases cd with | mk c d => rfl

/-- C2 (counterexample): on the body `"Your sign-in code is\n123456"` the
extraction does not return the code with the tier-1 tag: `[^\d\n]*` in
`SIGN_IN_CODE_REGEX` cannot cross the newline separating the anchor from
the digits. -/
theorem sign_in_code_newline_not_tier1 :
    get_sign_in_code_extract "Your sign-in code is\n123456"
      ≠ some ("123456", "main regex") := by
  decide

/-- C2 (amended): on the body `"Your sign-in code is\n123456"` the
extraction returns the code `"123456"`, but via the tier-3 standalone-line
pattern (`pattern_used = "simple pattern"`). -/
theorem sign_in_code_newline_tier3 :
    get_sign_in_code_extract "Your sign-in code is\n123456"
      = some ("123456", "simple pattern") := by
  rfl

/-- C4: the extraction chain is ordered and short-circuits — whenever
`SIGN_IN_CODE_REGEX` (tier 1) matches, the result is that match tagged
`"main regex"`, and none of the lower tiers contributes. -/
theorem tier1_short_circuits (content : String) (code : List Char)
    (h : tier1Search content.data = some code) :
    get_sign_in_code_extract content = some (String.mk code, "main regex") := by
  unfold get_sign_in_code_extract
  rw [h]

/-- Witness: a concrete body where tier 1 matches, run through the chain. -/
theorem tier1_short_circuits_witness :
    tier1Search "Your sign-in code is 111222".data = some "111222".data ∧
    get_sign_in_code_extract "Your sign-in code is 111222"
      = some (String.mk "111222".data, "main regex") :=
  ⟨by rfl, tier1_short_circuits "Your sign-in code is 111222" "111222".data (by rfl)⟩

/-- `matchReturn` always yields a present pair. -/
theorem matchReturn_isSome (content : Option String) (date : String) :
    (matchReturn content date).isSome = true := by
  unfold matchReturn
  split <;> rfl

/-- The scan ignores a leading block of candidates none of which passes
the subject filter. -/
theorem scanCandidates_append_no_match (filter : String) {l1 : List Candidate}
    (h : ∀ c ∈ l1, matchesF filter c = false) (l2 : List Candidate) :
    scanCandidates filter (l1 ++ l2) = scanCandidates filter l2 := by
  induction l1 with
  | nil => rfl
  | cons c rest ih =>
    have hc := h c (List.mem_cons_self c rest)
    have hrest : ∀ c ∈ rest, matchesF filter c = false :=
      fun c hmem => h c (List.mem_cons_of_mem _ hmem)
    cases c with
    | fetchFail => simpa [scanCandidates] using ih hrest
    | fetched subj content date =>
      have hcc : containsCI subj filter = false := by simpa [matchesF] using hc
      simpa [scanCandidates, hcc] using ih hrest

/-- The scan skips a faulted fetch wherever it sits. -/
theorem scanCandidates_skip_fail (filter : String) (l1 l2 : List Candidate) :
    scanCandidates filter (l1 ++ Candidate.fetchFail :: l2)
      = scanCandidates filter (l1 ++ l2) := by
  induction l1 with
  | nil => rfl
  | cons c rest ih =>
    cases c with
    | fetchFail => simpa [scanCandidates] using ih
    | fetched subj content date =>
      by_cases hcc : containsCI subj filter = true
      · simp [scanCandidates, hcc]
      · simp only [List.cons_append, scanCandidates, hcc]
        simpa using ih

theorem scanCandidates_isSome_iff (filter : String) (l : List Candidate) :
    (scanCandidates filter l).isSome = true ↔ ∃ c ∈ l, matchesF filter c = true := by
  induction l with
  | nil => simp [scanCandidates]
  | cons c rest ih =>
    cases c with
    | fetchFail => simp [scanCandidates, ih, matchesF]
    | fetched subj content date =>
      by_cases hcc : containsCI subj filter = true
      · simp [scanCandidates, hcc, matchesF, matchReturn_isSome]
      · simp [scanCandidates, hcc, ih, matchesF]

/-- C3: the email locator returns a present result iff some candidate's
decoded subject contains the filter case-insensitively, and the returned
result is the one produced by the matching candidate closest to the end of
search-result order (the most recent one): as soon as no candidate after
`c` matches, candidates before `c` (older ones) do not influence the
result. -/
theorem locator_newest_match (filter : String) (cs : List Candidate) :
    ((get_netflix_emails_model filter cs).isSome = true ↔
      ∃ c ∈ cs, matchesF filter c = true) ∧
    (∀ xs c ys, cs = xs ++ c :: ys → matchesF filter c = true →
      (∀ c' ∈ ys, matchesF filter c' = false) →
      get_netflix_emails_model filter cs = candidateResult filter c) := by
  constructor
  · unfold get_netflix_emails_model
    rw [scanCandidates_isSome_iff]
    constructor
    · rintro ⟨c, hmem, hc⟩
      exact ⟨c, List.mem_reverse.mp hmem, hc⟩
    · rintro ⟨c, hmem, hc⟩
      exact ⟨c, List.mem_reverse.mpr hmem, hc⟩
  · rintro xs c ys rfl hc hys
    unfold get_netflix_emails_model
    rw [List.reverse_append, List.reverse_cons, List.append_assoc, List.singleton_append]
    rw [scanCandidates_append_no_match filter
      (fun c' hmem => hys c' (List.mem_reverse.mp hmem))]
    cases c with
    | fetchFail => simp [matchesF] at hc
    | fetched subj content date =>
      have hcc : containsCI subj filter = true := by simpa [matchesF] using hc
      simp [scanCandidates, candidateResult, hcc]

/-- Witness: two matching candidates; the locator returns the later
(more recent) one. -/
theorem locator_newest_match_witness :
    get_netflix_emails_model "code"
        [Candidate.fetched "Netflix: your code inside" (some "body1") "d1",
         Candidate.fetched "Your CODE is ready" (some "body2") "d2"]
      = some (some "body2", some "d2") := by
  have h := (locator_newest_match "code"
      [Candidate.fetched "Netflix: your code inside" (some "body1") "d1",
       Candidate.fetched "Your CODE is ready" (some "body2") "d2"]).2
      [Candidate.fetched "Netflix: your code inside" (some "body1") "d1"]
      (Candidate.fetched "Your CODE is ready" (some "body2") "d2") [] rfl
      (by decide) (by intro c' hmem; cases hmem)
  rw [h]
  rfl

/-- C8: a fetch/parse fault for a single candidate only removes that
candidate from the scan — the locator's result on any candidate sequence
with a faulted entry equals its result with that entry deleted. -/
theorem fetch_fault_skipped (filter : String) (xs ys : List Candidate) :
    get_netflix_emails_model filter (xs ++ Candidate.fetchFail :: ys)
      = get_netflix_emails_model filter (xs ++ ys) := by
  unfold get_netflix_emails_model
  rw [List.reverse_append, List.reverse_cons, List.append_assoc, List.singleton_append,
    scanCandidates_skip_fail, ← List.reverse_append]

/-- C10: when the most recent matching candidate has no extractable text
content, the locator returns the present pair `(none, none)` and never
consults the older candidates (the result holds for every older segment
`xs`). -/
theorem locator_match_without_content (filter subj date : String)
    (xs ys : List Candidate)
    (hm : containsCI subj filter = true)
    (hys : ∀ c ∈ ys, matchesF filter c = false) :
    get_netflix_emails_model filter
        (xs ++ Candidate.fetched subj none date :: ys)
      = some (none, none) := by
  unfold get_netflix_emails_model
  rw [List.reverse_append, List.reverse_cons, List.append_assoc, List.singleton_append,
    scanCandidates_append_no_match filter
      (fun c' hmem => hys c' (List.mem_reverse.mp hmem))]
  simp [scanCandidates, hm, matchReturn, pyTruthyOpt]

/-- Witness: the older candidate has content, but the newest matching
candidate without content already ends the scan with `(none, none)`. -/
theorem locator_match_without_content_witness :
    get_netflix_emails_model "pin"
        [Candidate.fetched "Your PIN (old)" (some "old body") "d1",
         Candidate.fetched "Your PIN" none "d2"]
      = some (none, none) :=
  locator_match_without_content "pin" "Your PIN" "d2"
    [Candidate.fetched "Your PIN (old)" (some "old body") "d1"] []
    (by decide) (by intro c' hmem; cases hmem)

/-- C9: per user, with six invocations at nondecreasing times inside one
60-second window, the `signin` gate lets the first five through to the
core and rejects the sixth at the rate limiter, before the core email
pipeline runs (max 5 requests per 60 seconds). -/
theorem rate_limit_sixth_rejected (t1 t2 t3 t4 t5 t6 : ℚ)
    (h12 : t1 ≤ t2) (h23 : t2 ≤ t3) (h34 : t3 ≤ t4) (h45 : t4 ≤ t5) (h56 : t5 ≤ t6)
    (hw : t6 - t1 < 60) :
    run_signin_calls [t1, t2, t3, t4, t5, t6] [] =
      [SigninStep.coreInvoked, SigninStep.coreInvoked, SigninStep.coreInvoked,
       SigninStep.coreInvoked, SigninStep.coreInvoked, SigninStep.rateLimitReject] := by
  have h21 : t2 - t1 < 60 := by linarith
  have h31 : t3 - t1 < 60 := by linarith
  have h32 : t3 - t2 < 60 := by linarith
  have h41 : t4 - t1 < 60 := by linarith
  have h42 : t4 - t2 < 60 := by linarith
  have h43 : t4 - t3 < 60 := by linarith
  have h51 : t5 - t1 < 60 := by linarith
  have h52 : t5 - t2 < 60 := by linarith
  have h53 : t5 - t3 < 60 := by linarith
  have h54 : t5 - t4 < 60 := by linarith
  have h61 : t6 - t1 < 60 := by linarith
  have h62 : t6 - t2 < 60 := by linarith
  have h63 : t6 - t3 < 60 := by linarith
  have h64 : t6 - t4 < 60 := by linarith
  have h65 : t6 - t5 < 60 := by linarith
  simp [run_signin_calls, signin_gate, is_rate_limited, RATE_LIMIT_WINDOW,
    RATE_LIMIT_MAX_REQUESTS, List.filter_cons, List.filter_nil,
    h21, h31, h32, h41, h42, h43, h51, h52, h53, h54, h61, h62, h63, h64, h65]

/-- Witness: six calls at 0,10,…,50 seconds. -/
theorem rate_limit_sixth_rejected_witness :
    run_signin_calls [0, 10, 20, 30, 40, 50] [] =
      [SigninStep.coreInvoked, SigninStep.coreInvoked, SigninStep.coreInvoked,
       SigninStep.coreInvoked, SigninStep.coreInvoked, SigninStep.rateLimitReject] :=
  rate_limit_sixth_rejected 0 10 20 30 40 50 (by norm_num) (by norm_num)
    (by norm_num) (by norm_num) (by norm_num) (by norm_num)

/-- C5 (counterexample): for an unparsable raw date header the evaluator
does return `isExpired = true`, but its message is `"Unknown email date"`,
which does not contain the phrase `"unknown date"`, not even
case-insensitively. -/
theorem unknown_date_message_mismatch :
    parse_email_date (fun _ => .error ()) "absolutely not a date!!" = none ∧
    is_code_expired 0 (parse_email_date (fun _ => .error ()) "absolutely not a date!!") 15
      = (true, "Unknown email date") ∧
    containsCI "Unknown email date" "unknown date" = false :=
  ⟨rfl, rfl, by decide⟩

/-- C5 (amended): for every raw date header that is absent or fails to
parse, the evaluator does not fault and returns `isExpired = true` with
the fixed message `"Unknown email date"`. -/
theorem unknown_date_verdict (parsedate : String → Except Unit PyDateTime)
    (date_str : String) (now : ℚ)
    (h : parse_email_date parsedate date_str = none) :
    is_code_expired now (parse_email_date parsedate date_str) 15
      = (true, "Unknown email date") := by
  rw [h]
  rfl

/-- Witness: a concrete unparsable header. -/
theorem unknown_date_verdict_witness :
    is_code_expired 5 (parse_email_date (fun _ => .error ()) "garbage date") 15
      = (true, "Unknown email date") :=
  unknown_date_verdict (fun _ => .error ()) "garbage date" 5 rfl

/-- C6: for a parsed message timestamp, the expiry comparison is strict —
an elapsed time of exactly 15 minutes (900 seconds) is not expired, any
strictly greater elapsed time is — and a timestamp lacking a zone is read
as UTC (its instant is its wall-clock reading). -/
theorem expiry_boundary (now : ℚ) (d : PyDateTime) :
    (now - utcInstant (normTz d) = 900 →
      (is_code_expired now (some d) 15).1 = false) ∧
    (900 < now - utcInstant (normTz d) →
      (is_code_expired now (some d) 15).1 = true) ∧
    (d.tz = none → utcInstant (normTz d) = d.wall) := by
  refine ⟨?_, ?_, ?_⟩
  · intro h
    have hdiv : (now - utcInstant (normTz d)) / 60 = 15 := by
      rw [h]; norm_num
    simp only [is_code_expired]
    rw [if_neg]
    rw [hdiv]
    exact lt_irrefl 15
  · intro h
    have hdiv : (15 : ℚ) < (now - utcInstant (normTz d)) / 60 := by
      rw [lt_div_iff₀ (by norm_num : (0:ℚ) < 60)]
      linarith
    simp only [is_code_expired]
    rw [if_pos hdiv]
  · intro h
    simp [normTz, utcInstant, h]

/-- Witness: a naive timestamp at the epoch, evaluated at 900 and 1000
seconds later. -/
theorem expiry_boundary_witness :
    (is_code_expired 900 (some ⟨0, none⟩) 15).1 = false ∧
    (is_code_expired 1000 (some ⟨0, none⟩) 15).1 = true ∧
    utcInstant (normTz ⟨0, none⟩) = (0 : ℚ) :=
  ⟨(expiry_boundary 900 ⟨0, none⟩).1 (by norm_num [normTz, utcInstant]),
   (expiry_boundary 1000 ⟨0, none⟩).2.1 (by norm_num [normTz, utcInstant]),
   (expiry_boundary 0 ⟨0, none⟩).2.2 rfl⟩

/-- When every part decodes, the loop appends all the per-word strings
after the accumulator. -/
theorem decodeLoop_all_ok (codec : String → List Nat → Except Unit String)
    (parts : List HeaderPart) :
    (∀ p ∈ parts, exceptOk (perWordDecode codec p) = true) →
    ∀ acc, decodeLoop codec parts acc = .ok (acc ++ concatParts codec parts) := by
  induction parts with
  | nil => intro _ acc; simp [decodeLoop, concatParts]
  | cons p rest ih =>
    intro h acc
    have hp := h p (List.mem_cons_self p rest)
    have hrest := fun q hq => h q (List.mem_cons_of_mem _ hq)
    cases hpw : perWordDecode codec p with
    | error u => rw [hpw] at hp; simp [exceptOk] at hp
    | ok s =>
      simp only [decodeLoop, hpw]
      rw [ih hrest (acc ++ s), concatParts, hpw]
      simp [okVal, String.append_assoc]

/-- When some part fails to decode, the loop raises. -/
theorem decodeLoop_some_error (codec : String → List Nat → Except Unit String)
    (parts : List HeaderPart) :
    (∃ p ∈ parts, exceptOk (perWordDecode codec p) = false) →
    ∀ acc, decodeLoop codec parts acc = .error () := by
  induction parts with
  | nil => rintro ⟨p, hmem, _⟩; cases hmem
  | cons p rest ih =>
    rintro ⟨q, hmem, hq⟩ acc
    cases hpw : perWordDecode codec p with
    | error u => simp [decodeLoop, hpw]
    | ok s =>
      simp only [decodeLoop, hpw]
      rcases List.mem_cons.mp hmem with heq | hmem2
      · subst heq; rw [hpw] at hq; simp [exceptOk] at hq
      · exact ih ⟨q, hmem2, hq⟩ (acc ++ s)

/-- C7 (counterexample): one raw subject whose encoded words are a word
with no declared encoding holding the invalid byte `0xFF` and a word whose
declared codec faults.  The claim's per-word rule (formalised by
`decodeSubjectSpec`) demands `"�B"`; the code returns the raw subject
unchanged — a faulting word is not replaced per-word but aborts the whole
decode, and a word with no encoding is decoded with undecodable bytes
dropped, not replaced. -/
theorem subject_decode_not_per_word :
    decode_email_subject (fun _ _ => .error ())
        [HeaderPart.bytesPart [255] none, HeaderPart.bytesPart [66] (some "x-bogus")]
        "=?raw-header?=" = "=?raw-header?=" ∧
    decodeSubjectSpec (fun _ _ => .error ())
        [HeaderPart.bytesPart [255] none, HeaderPart.bytesPart [66] (some "x-bogus")]
      = "�B" ∧
    ("=?raw-header?=" : String) ≠ "�B" :=
  ⟨rfl, by decide, by decide⟩

/-- C7 (amended): subject decoding decodes each encoded word with its
declared encoding and decodes a word with no (or an empty) declared
encoding as UTF-8 with undecodable bytes dropped, concatenating in header
order — but when decoding any word under its declared encoding faults,
the whole original raw subject is returned unchanged instead of a
per-word fallback. -/
theorem subject_decode_behavior (codec : String → List Nat → Except Unit String)
    (parts : List HeaderPart) (subject : String) :
    ((∀ p ∈ parts, exceptOk (perWordDecode codec p) = true) →
      decode_email_subject codec parts subject = concatParts codec parts) ∧
    ((∃ p ∈ parts, exceptOk (perWordDecode codec p) = false) →
      decode_email_subject codec parts subject = subject) := by
  constructor
  · intro h
    unfold decode_email_subject
    rw [decodeLoop_all_ok codec parts h ""]
    simp
  · intro h
    unfold decode_email_subject
    rw [decodeLoop_some_error codec parts h ""]

/-- Witness: an all-successful header and a faulting header. -/
theorem subject_decode_behavior_witness :
    decode_email_subject (fun _ bs => .ok (String.mk (utf8DecodeWith false bs)))
        [HeaderPart.textPart "Hello ", HeaderPart.bytesPart [72, 105] none] "raw"
      = "Hello Hi" ∧
    decode_email_subject (fun _ _ => .error ())
        [HeaderPart.bytesPart [72] (some "x-bogus")] "raw" = "raw" := by
  constructor
  · have h := (subject_decode_behavior
        (fun _ bs => .ok (String.mk (utf8DecodeWith false bs)))
        [HeaderPart.textPart "Hello ", HeaderPart.bytesPart [72, 105] none] "raw").1
        (by decide)
    rw [h]
    decide
  · exact (subject_decode_behavior (fun _ _ => .error ())
        [HeaderPart.bytesPart [72] (some "x-bogus")] "raw").2
        ⟨HeaderPart.bytesPart [72] (some "x-bogus"), by simp, rfl⟩

end NetflixBot
